import Mathlib

/-!
Verification of the PagerDuty access-request bridge (`access/pagerduty/app.go`
and the Bot client file).  External collaborators (the authorization backend
client, the PagerDuty REST client) are modelled as an oracle `Env` whose fields
give the response of each outbound call; every handler is embedded as a function
returning its `Except`-style outcome together with the ordered trace of
backend/incident calls it issued.
-/

deriving instance DecidableEq for Except

/-- Error values produced by handlers; mirrors the `trace` package's error
classes used in the source (`trace.NotFound`, `trace.BadParameter`,
`trace.Errorf`/wrapped errors). -/
inductive Err where
  | notFound (msg : String)
  | badParameter (msg : String)
  | internal (msg : String)
deriving DecidableEq, Repr

/-- Model of `trace.IsNotFound` on our error type. -/
def Err.IsNotFound : Err → Bool
  | .notFound _ => true
  | _ => false

/-- Modelled from the spec: request lifecycle state
`{Pending, Approved, Denied, Expired/Deleted}` (the `access` package is an
external collaborator whose source is not included). -/
inductive ReqState where
  | pending
  | approved
  | denied
  | expired
deriving DecidableEq, Repr

/-- Model of `access.State.IsPending`. -/
def ReqState.IsPending : ReqState → Bool
  | .pending => true
  | _ => false

/-- Modelled from the spec: an access request as seen by the bridge
(identity, principal, requested roles, creation time, lifecycle state).
The creation timestamp is kept as its already-formatted string. -/
structure Request where
  id : String
  user : String
  roles : List String
  created : String
  state : ReqState
deriving DecidableEq, Repr

/-- The `RequestData` record from the source: the snapshot stored in plugin data. -/
structure RequestData where
  user : String
  roles : List String
  created : String
deriving DecidableEq, Repr

/-- The `PagerdutyData` record from the source: the incident reference. -/
structure PagerdutyData where
  id : String
deriving DecidableEq, Repr

/-- The `PluginData` record from the source: the request snapshot paired
with the incident reference. -/
structure PluginData where
  requestData : RequestData
  pagerdutyData : PagerdutyData
deriving DecidableEq, Repr

/-- The `WebhookAction` record delivered by the webhook server to
`onPagerdutyAction`. -/
structure WebhookAction where
  httpRequestID : String
  messageID : String
  event : String
  name : String
  incidentID : String
  incidentKey : String
deriving DecidableEq, Repr

/-- Modelled from the spec: watcher event operation (`put` / `delete`; other
operations reach the `default` branch of `onWatcherEvent`). -/
inductive EventOp where
  | put
  | delete
  | unknown (s : String)
deriving DecidableEq, Repr

/-- Model of `access.Event`: a watcher event carrying an operation and a request. -/
structure Event where
  op : EventOp
  request : Request
deriving DecidableEq, Repr

/-- One entry of a PagerDuty extension-schema listing page. -/
structure SchemaEntry where
  key : String
  id : String
deriving DecidableEq, Repr

/-- One response page of `ListExtensionSchemas`. -/
structure SchemaPage where
  schemas : List SchemaEntry
  more : Bool
deriving DecidableEq, Repr

/-- One entry of a PagerDuty extension listing page. -/
structure ExtEntry where
  name : String
  id : String
deriving DecidableEq, Repr

/-- One response page of `ListExtensions`. -/
structure ExtPage where
  extensions : List ExtEntry
  more : Bool
deriving DecidableEq, Repr

/-- The payload of `CreateExtension`/`UpdateExtension` built by
`setupCustomAction`. -/
structure Extension where
  name : String
  endpointURL : String
  schemaID : String
  serviceID : String
deriving DecidableEq, Repr

/-- The ordered trace of outbound backend / incident-service calls a handler
issues. -/
inductive Call where
  | getRequest (reqID : String)
  | setRequestState (reqID : String) (state : ReqState)
  | getPluginData (reqID : String)
  | updatePluginData (reqID : String) (data : List (String × String))
  | createIncident (fromEmail serviceID title incidentKey body : String)
  | createIncidentNote (incidentID fromEmail content : String)
  | manageIncidents (fromEmail incidentID status : String)
  | createExtension (ext : Extension)
  | updateExtension (extID : String) (ext : Extension)
deriving DecidableEq, Repr

/-- Oracle for the external collaborators: each field gives the outcome the
corresponding outbound call would produce.  The two paginated PagerDuty
listings are given as the sequence of response pages the server returns at
offsets 0, limit, 2·limit, … -/
structure Env where
  getRequest : String → Except Err Request
  setRequestState : String → ReqState → Except Err Unit
  getPluginData : String → Except Err (List (String × String))
  updatePluginData : String → List (String × String) → Except Err Unit
  createIncident : String → String → String → String → String → Except Err String
  createIncidentNote : String → String → String → Except Err Unit
  manageIncidents : String → String → String → Except Err Unit
  listSchemaPages : List (Except Err SchemaPage)
  listExtPages : List (Except Err ExtPage)
  createExtension : Extension → Except Err Unit
  updateExtension : String → Extension → Except Err Unit

/-- The bridge's own configuration carried by `Bot` (`from` e-mail, PagerDuty
service ID, and the webhook server's action-URL base from which
`server.ActionURL(name)` is formed).  Named `BotConfig` because `Bot` itself is
taken by Mathlib; the `Bot.*` method names below match the source. -/
structure BotConfig where
  fromEmail : String
  serviceID : String
  actionURLBase : String
deriving DecidableEq, Repr

/-- Accumulating helper of `splitCh`. -/
def splitChAux (sep : Char) : List Char → List Char → List String
  | [], cur => [String.mk cur.reverse]
  | c :: rest, cur =>
      if c = sep then String.mk cur.reverse :: splitChAux sep rest []
      else splitChAux sep rest (c :: cur)

/-- Go's `strings.Split(s, sep)` for a one-character separator: splits around
each occurrence; the empty string yields `[""]`. -/
def splitCh (sep : Char) (s : String) : List String :=
  splitChAux sep s.toList []

/-- The split `strings.Split(s, "/")` as used on incident keys. -/
def splitSlash (s : String) : List String :=
  splitCh '/' s

def pdIncidentKeyPref : String := "teleport-access-request"
def pdApproveAction : String := "approve"
def pdApproveActionLabel : String := "Approve Request"
def pdDenyAction : String := "deny"
def pdDenyActionLabel : String := "Deny Request"

/-- Embedding of `buildIncidentBody`: renders the fixed incident-body template over the
request snapshot (the template uses the user, the comma-joined roles and the
formatted creation time; the request ID argument is accepted but unused by the
template, as in the source). -/
def Bot.buildIncidentBody (reqID : String) (reqData : RequestData) : String :=
  reqData.user ++ " requested permissions for roles "
    ++ String.intercalate ", " reqData.roles
    ++ " on Teleport at " ++ reqData.created
    ++ ". To approve or deny the request, please use Special Actions on this incident.\n"

/-- Modelled from the spec: `EncodePluginData` (defined elsewhere in the
repository) serializes the `{RequestSnapshot, IncidentReference}` record into
a string map. -/
def EncodePluginData (data : PluginData) : List (String × String) :=
  [("user", data.requestData.user),
   ("roles", String.intercalate "," data.requestData.roles),
   ("created", data.requestData.created),
   ("incident_id", data.pagerdutyData.id)]

/-- Modelled from the spec: `DecodePluginData` (defined elsewhere in the
repository) reads the string map back into the record, with empty defaults for
absent keys. -/
def DecodePluginData (m : List (String × String)) : PluginData :=
  { requestData :=
      { user := ((m.lookup "user").getD "")
        roles :=
          match (m.lookup "roles").getD "" with
          | "" => []
          | s => splitCh ',' s
        created := ((m.lookup "created").getD "") }
    pagerdutyData := { id := ((m.lookup "incident_id").getD "") } }

/-- Embedding of `Bot.CreateIncident`: builds the body and issues one incident-creation
call whose incident key is `"<pref>/<reqID>"`; on success returns the created
incident's ID wrapped in `PagerdutyData`. -/
def Bot.CreateIncident (b : BotConfig) (env : Env) (reqID : String) (reqData : RequestData) :
    Except Err PagerdutyData × List Call :=
  let body := Bot.buildIncidentBody reqID reqData
  let title := "Access request from " ++ reqData.user
  let key := pdIncidentKeyPref ++ "/" ++ reqID
  match env.createIncident b.fromEmail b.serviceID title key body with
  | .error e => (.error e, [Call.createIncident b.fromEmail b.serviceID title key body])
  | .ok incID =>
      (.ok { id := incID }, [Call.createIncident b.fromEmail b.serviceID title key body])

/-- Embedding of `Bot.ResolveIncident`: issues a note-creation call and, only when it
succeeds, a manage(resolve) call; a note failure is returned at once. -/
def Bot.ResolveIncident (b : BotConfig) (env : Env) (reqID : String)
    (pdData : PagerdutyData) (status : String) : Except Err Unit × List Call :=
  let content := "Access request has been " ++ status
  match env.createIncidentNote pdData.id b.fromEmail content with
  | .error e => (.error e, [Call.createIncidentNote pdData.id b.fromEmail content])
  | .ok _ =>
      match env.manageIncidents b.fromEmail pdData.id "resolved" with
      | .error e =>
          (.error e,
            [Call.createIncidentNote pdData.id b.fromEmail content,
             Call.manageIncidents b.fromEmail pdData.id "resolved"])
      | .ok _ =>
          (.ok (),
            [Call.createIncidentNote pdData.id b.fromEmail content,
             Call.manageIncidents b.fromEmail pdData.id "resolved"])

/-- Embedding of `App.getPluginData`: fetch the raw map from the backend and decode it. -/
def App.getPluginData (env : Env) (reqID : String) : Except Err PluginData × List Call :=
  match env.getPluginData reqID with
  | .error e => (.error e, [Call.getPluginData reqID])
  | .ok m => (.ok (DecodePluginData m), [Call.getPluginData reqID])

/-- Embedding of `App.setPluginData`: encode and store the plugin-data record. -/
def App.setPluginData (env : Env) (reqID : String) (data : PluginData) :
    Except Err Unit × List Call :=
  (env.updatePluginData reqID (EncodePluginData data),
   [Call.updatePluginData reqID (EncodePluginData data)])

/-- Embedding of `App.onPendingRequest`: create the incident, then persist plugin data
holding the returned incident reference. -/
def App.onPendingRequest (b : BotConfig) (env : Env) (req : Request) :
    Except Err Unit × List Call :=
  let reqData : RequestData := { user := req.user, roles := req.roles, created := req.created }
  match Bot.CreateIncident b env req.id reqData with
  | (.error e, calls) => (.error e, calls)
  | (.ok pdData, calls) =>
      match App.setPluginData env req.id { requestData := reqData, pagerdutyData := pdData } with
      | (r, calls2) => (r, calls ++ calls2)

/-- Embedding of `App.onDeletedRequest`: look up plugin data (warn-and-succeed when absent)
and resolve the referenced incident as "expired". -/
def App.onDeletedRequest (b : BotConfig) (env : Env) (req : Request) :
    Except Err Unit × List Call :=
  match App.getPluginData env req.id with
  | (.error e, calls) => if e.IsNotFound then (.ok (), calls) else (.error e, calls)
  | (.ok pluginData, calls) =>
      match Bot.ResolveIncident b env req.id pluginData.pagerdutyData "expired" with
      | (r, calls2) => (r, calls ++ calls2)

/-- Embedding of `App.onWatcherEvent`: dispatch a watcher event (`put` handled only while
pending, `delete` to the deletion path, anything else a bad parameter). -/
def App.onWatcherEvent (b : BotConfig) (env : Env) (event : Event) :
    Except Err Unit × List Call :=
  match event.op with
  | .put =>
      if ¬ event.request.state.IsPending then (.ok (), [])
      else App.onPendingRequest b env event.request
  | .delete => App.onDeletedRequest b env event.request
  | .unknown s => (.error (Err.badParameter ("unexpected event operation " ++ s)), [])

/-- Embedding of `App.onPagerdutyAction`: the inbound webhook action handler. -/
def App.onPagerdutyAction (b : BotConfig) (env : Env) (action : WebhookAction) :
    Except Err Unit × List Call :=
  if action.event ≠ "incident.custom" then (.ok (), [])
  else
    match splitSlash action.incidentKey with
    | [p, reqID] =>
        if p ≠ pdIncidentKeyPref then (.ok (), [])
        else
          match env.getRequest reqID with
          | .error e =>
              if e.IsNotFound then (.ok (), [Call.getRequest reqID])
              else (.error e, [Call.getRequest reqID])
          | .ok req =>
              if req.state ≠ ReqState.pending then
                (.error (Err.internal "cannot process not pending request"),
                 [Call.getRequest reqID])
              else
                match App.getPluginData env reqID with
                | (.error e, calls) => (.error e, Call.getRequest reqID :: calls)
                | (.ok pluginData, calls) =>
                    if pluginData.pagerdutyData.id ≠ action.incidentID then
                      (.error (Err.internal "incident_id from request's plugin_data does not match"),
                       Call.getRequest reqID :: calls)
                    else
                      match
                        (if action.name = pdApproveAction then
                          some (ReqState.approved, "approved")
                         else if action.name = pdDenyAction then
                          some (ReqState.denied, "denied")
                         else none) with
                      | none =>
                          (.error (Err.badParameter ("unknown action: " ++ action.name)),
                           Call.getRequest reqID :: calls)
                      | some (reqState, resolution) =>
                          match env.setRequestState req.id reqState with
                          | .error e =>
                              (.error e,
                               Call.getRequest reqID :: calls
                                 ++ [Call.setRequestState req.id reqState])
                          | .ok _ =>
                              match Bot.ResolveIncident b env reqID
                                  pluginData.pagerdutyData resolution with
                              | (r, calls2) =>
                                  (r, Call.getRequest reqID :: calls
                                        ++ [Call.setRequestState req.id reqState] ++ calls2)
    | _ => (.ok (), [])

/-- The scan over one schema page: the last `"custom_webhook"` entry's ID
wins, an earlier accumulator is kept otherwise. -/
def scanSchemaPage : List SchemaEntry → String → String
  | [], acc => acc
  | s :: rest, acc =>
      scanSchemaPage rest (if s.key = "custom_webhook" then s.id else acc)

/-- The schema-search loop of `Bot.Setup`: pages are fetched while no ID has
been found and the previous page said `More`. -/
def findSchemaID (pages : List (Except Err SchemaPage)) (acc : String) : Except Err String :=
  if acc ≠ "" then .ok acc
  else
    match pages with
    | [] => .ok acc
    | .error e :: _ => .error e
    | .ok pg :: rest =>
        let acc2 := scanSchemaPage pg.schemas acc
        if pg.more then findSchemaID rest acc2 else .ok acc2

/-- The scan over one extension page: entries named with the approve / deny
labels set the respective accumulator component to their ID. -/
def scanExtPage : List ExtEntry → String × String → String × String
  | [], acc => acc
  | e :: rest, acc =>
      scanExtPage rest
        (if e.name = pdApproveActionLabel then e.id else acc.1,
         if e.name = pdDenyActionLabel then e.id else acc.2)

/-- The extension-search loop of `Bot.Setup`: pages are fetched while at least
one of the two IDs is still empty and the previous page said `More`. -/
def findExtIDs (pages : List (Except Err ExtPage)) (acc : String × String) :
    Except Err (String × String) :=
  if acc.1 ≠ "" ∧ acc.2 ≠ "" then .ok acc
  else
    match pages with
    | [] => .ok acc
    | .error e :: _ => .error e
    | .ok pg :: rest =>
        let acc2 := scanExtPage pg.extensions acc
        if pg.more then findExtIDs rest acc2 else .ok acc2

/-- Embedding of `Bot.setupCustomAction`: create the extension when no existing ID was
found, update it by ID otherwise. -/
def Bot.setupCustomAction (b : BotConfig) (env : Env)
    (extensionID schemaID actionName actionLabel : String) :
    Except Err Unit × List Call :=
  let ext : Extension :=
    { name := actionLabel
      endpointURL := b.actionURLBase ++ actionName
      schemaID := schemaID
      serviceID := b.serviceID }
  if extensionID = "" then (env.createExtension ext, [Call.createExtension ext])
  else (env.updateExtension extensionID ext, [Call.updateExtension extensionID ext])

/-- Embedding of `Bot.Setup`: find the custom-webhook schema ID, find the existing approve /
deny extensions by label, then upsert both custom actions. -/
def Bot.Setup (b : BotConfig) (env : Env) : Except Err Unit × List Call :=
  match findSchemaID env.listSchemaPages "" with
  | .error e => (.error e, [])
  | .ok webhookSchemaID =>
      if webhookSchemaID = "" then
        (.error (Err.notFound "failed to find Custom Incident Action extension type"), [])
      else
        match findExtIDs env.listExtPages ("", "") with
        | .error e => (.error e, [])
        | .ok ids =>
            match Bot.setupCustomAction b env ids.1 webhookSchemaID
                pdApproveAction pdApproveActionLabel with
            | (.error e, calls) => (.error e, calls)
            | (.ok _, calls1) =>
                match Bot.setupCustomAction b env ids.2 webhookSchemaID
                    pdDenyAction pdDenyActionLabel with
                | (r, calls2) => (r, calls1 ++ calls2)

/-- Is a trace entry an incident-creation call? -/
def Call.isCreateIncident : Call → Bool
  | .createIncident _ _ _ _ _ => true
  | _ => false

/-- Is a trace entry a backend state-transition call? -/
def Call.isSetRequestState : Call → Bool
  | .setRequestState _ _ => true
  | _ => false

/-- Is a trace entry an incident note or manage(resolve) call? -/
def Call.isIncidentResolutionCall : Call → Bool
  | .createIncidentNote _ _ _ => true
  | .manageIncidents _ _ _ => true
  | _ => false

/-- Is a trace entry an extension-creation call? -/
def Call.isCreateExtension : Call → Bool
  | .createExtension _ => true
  | _ => false

/-- Is a trace entry an extension-update call? -/
def Call.isUpdateExtension : Call → Bool
  | .updateExtension _ _ => true
  | _ => false

/-- Is a trace entry a manage-incidents (resolve) call? -/
def Call.isManageIncidents : Call → Bool
  | .manageIncidents _ _ _ => true
  | _ => false

/-- The extension payload `setupCustomAction` builds for the approve action. -/
def extApprove (b : BotConfig) (schemaID : String) : Extension :=
  { name := pdApproveActionLabel
    endpointURL := b.actionURLBase ++ pdApproveAction
    schemaID := schemaID
    serviceID := b.serviceID }

/-- The extension payload `setupCustomAction` builds for the deny action. -/
def extDeny (b : BotConfig) (schemaID : String) : Extension :=
  { name := pdDenyActionLabel
    endpointURL := b.actionURLBase ++ pdDenyAction
    schemaID := schemaID
    serviceID := b.serviceID }

/-- Every page of the extension listing is a successful response whose
approve / deny-labelled entries all carry nonempty IDs. -/
def extPagesOk (pages : List (Except Err ExtPage)) : Bool :=
  pages.all fun p =>
    match p with
    | .error _ => false
    | .ok pg =>
        pg.extensions.all fun e =>
          (e.name != pdApproveActionLabel || e.id != "") &&
          (e.name != pdDenyActionLabel || e.id != "")

/-- Every page except possibly the last announces a further page. -/
def moreLinked : List (Except Err ExtPage) → Bool
  | [] => true
  | [_] => true
  | .ok pg :: rest => pg.more && moreLinked rest
  | .error _ :: rest => moreLinked rest

/-- Some page of the listing contains an extension entry with this label. -/
def extAppears (label : String) (pages : List (Except Err ExtPage)) : Bool :=
  pages.any fun p =>
    match p with
    | .error _ => false
    | .ok pg => pg.extensions.any fun e => e.name == label

/-- Fixture: bot configuration used by concrete witnesses. -/
def botT : BotConfig :=
  { fromEmail := "bot@example.com"
    serviceID := "SVC1"
    actionURLBase := "https://hooks.example.com/" }

/-- Fixture: request snapshot used by concrete witnesses. -/
def reqDataT : RequestData :=
  { user := "alice", roles := ["admin"], created := "02 Jan 06 15:04 MST" }

/-- Fixture: a pending request used by concrete witnesses. -/
def reqT : Request :=
  { id := "R1", user := "alice", roles := ["admin"]
    created := "02 Jan 06 15:04 MST", state := .pending }

/-- Fixture: the stored plugin-data map cross-referencing incident INC1. -/
def pluginMapT : List (String × String) :=
  EncodePluginData { requestData := reqDataT, pagerdutyData := { id := "INC1" } }

/-- Fixture: an oracle in which every outbound call succeeds; the stored
plugin data references incident INC1, the request is pending, and both
webhook extensions already exist in the listing. -/
def envBase : Env :=
  { getRequest := fun rid => .ok { reqT with id := rid }
    setRequestState := fun _ _ => .ok ()
    getPluginData := fun _ => .ok pluginMapT
    updatePluginData := fun _ _ => .ok ()
    createIncident := fun _ _ _ _ _ => .ok "INC1"
    createIncidentNote := fun _ _ _ => .ok ()
    manageIncidents := fun _ _ _ => .ok ()
    listSchemaPages := [.ok { schemas := [{ key := "custom_webhook", id := "SCHEMA1" }], more := false }]
    listExtPages :=
      [.ok { extensions :=
               [{ name := pdApproveActionLabel, id := "EXTA" },
                { name := pdDenyActionLabel, id := "EXTD" }]
             more := false }]
    createExtension := fun _ => .ok ()
    updateExtension := fun _ _ => .ok () }

/-- Fixture: as `envBase` but the incident-note call fails. -/
def envNoteFail : Env :=
  { envBase with createIncidentNote := fun _ _ _ => .error (Err.internal "pagerduty api error") }

/-- Fixture: as `envBase` but the fetched request is already approved. -/
def envNonPending : Env :=
  { envBase with getRequest := fun rid => .ok { reqT with id := rid, state := .approved } }

/-- Fixture: as `envBase` but plugin data is not found. -/
def envPdataMissing : Env :=
  { envBase with getPluginData := fun _ => .error (Err.notFound "plugin data not found") }

/-- Fixture: as `envBase` but the request is not found. -/
def envReqMissing : Env :=
  { envBase with getRequest := fun _ => .error (Err.notFound "request not found") }

/-- Fixture: as `envBase` but the extension listing is empty. -/
def envExtAbsent : Env :=
  { envBase with listExtPages := [.ok { extensions := [], more := false }] }

/-- Fixture: a well-formed approve webhook action for request R1 / incident INC1. -/
def approveActionT : WebhookAction :=
  { httpRequestID := "HTTP1", messageID := "MSG1", event := "incident.custom"
    name := "approve", incidentID := "INC1"
    incidentKey := "teleport-access-request/R1" }

/-- Fixture: same action with the deny name. -/
def denyActionT : WebhookAction := { approveActionT with name := "deny" }

/-- Fixture: same action with an unrecognized name. -/
def unknownActionT : WebhookAction := { approveActionT with name := "snooze" }

/-- Fixture: same action with an unrecognized event type. -/
def wrongEventActionT : WebhookAction := { approveActionT with event := "incident.trigger" }

/-- Fixture: same action with an incident key lacking the prefix/ID shape. -/
def badKeyActionT : WebhookAction := { approveActionT with incidentKey := "some-other-key" }

/-- Fixture: same action carrying a different incident ID than plugin data. -/
def mismatchActionT : WebhookAction := { approveActionT with incidentID := "INC2" }

/-- C1 (amended): `Bot.ResolveIncident` issues the note-creation call first,
and the manage(resolve) call is attempted exactly when the note call
succeeds — a note failure is propagated at once, skipping the resolve call. -/
theorem resolveIncident_note_gates_resolve (b : BotConfig) (env : Env) (reqID : String)
    (pdData : PagerdutyData) (status : String) :
    (∀ e : Err,
      env.createIncidentNote pdData.id b.fromEmail ("Access request has been " ++ status) = .error e →
      Bot.ResolveIncident b env reqID pdData status =
        (.error e,
         [Call.createIncidentNote pdData.id b.fromEmail ("Access request has been " ++ status)])) ∧
    (env.createIncidentNote pdData.id b.fromEmail ("Access request has been " ++ status) = .ok () →
      (Bot.ResolveIncident b env reqID pdData status).2 =
        [Call.createIncidentNote pdData.id b.fromEmail ("Access request has been " ++ status),
         Call.manageIncidents b.fromEmail pdData.id "resolved"]) := by
  constructor
  · intro e he
    simp [Bot.ResolveIncident, he]
  · intro hok
    cases hm : env.manageIncidents b.fromEmail pdData.id "resolved" <;>
      simp [Bot.ResolveIncident, hok, hm]

/-- C1 witness: in the all-success oracle, the note call is followed by the
manage(resolve) call. -/
theorem resolveIncident_note_gates_resolve_witness :
    (Bot.ResolveIncident botT envBase "R1" { id := "INC1" } "approved").2 =
      [Call.createIncidentNote "INC1" "bot@example.com" "Access request has been approved",
       Call.manageIncidents "bot@example.com" "INC1" "resolved"] :=
  (resolveIncident_note_gates_resolve botT envBase "R1" { id := "INC1" } "approved").2 rfl

/-- C1 counterexample: when the note call fails, the resolve (manage) call is
never attempted — the trace holds the note call only and the note failure is
returned, refuting "note failure does not prevent the resolve call". -/
theorem resolveIncident_note_failure_blocks_resolve :
    Bot.ResolveIncident botT envNoteFail "R1" { id := "INC1" } "approved" =
      (.error (Err.internal "pagerduty api error"),
       [Call.createIncidentNote "INC1" "bot@example.com" "Access request has been approved"]) ∧
    (Bot.ResolveIncident botT envNoteFail "R1" { id := "INC1" } "approved").2.countP
        Call.isManageIncidents = 0 :=
  ⟨rfl, rfl⟩

/-- C2: a webhook approve/deny action targeting an existing request that is
not pending fails with a hard error right after the request lookup: the trace
holds the lookup only — no state-transition, plugin-data or incident call. -/
theorem onPagerdutyAction_nonPending (b : BotConfig) (env : Env) (action : WebhookAction)
    (reqID : String) (req : Request)
    (hevent : action.event = "incident.custom")
    (hkey : splitSlash action.incidentKey = [pdIncidentKeyPref, reqID])
    (hreq : env.getRequest reqID = .ok req)
    (hstate : req.state ≠ ReqState.pending) :
    App.onPagerdutyAction b env action =
      (.error (Err.internal "cannot process not pending request"), [Call.getRequest reqID]) := by
  simp [App.onPagerdutyAction, hevent, hkey, hreq, hstate]

/-- C2 witness: the approve action on an already-approved R1 fails without
side effects. -/
theorem onPagerdutyAction_nonPending_witness :
    App.onPagerdutyAction botT envNonPending approveActionT =
      (.error (Err.internal "cannot process not pending request"), [Call.getRequest "R1"]) :=
  onPagerdutyAction_nonPending botT envNonPending approveActionT "R1"
    { reqT with state := .approved } rfl (by decide) rfl (by decide)

/-- C5: webhook callbacks with an unrecognized event type, or whose incident
key does not split as exactly the fixed prefix plus one ID, are success
no-ops issuing no backend or incident calls. -/
theorem onPagerdutyAction_noise_noop (b : BotConfig) (env : Env) (action : WebhookAction) :
    (action.event ≠ "incident.custom" → App.onPagerdutyAction b env action = (.ok (), [])) ∧
    ((∀ rid : String, splitSlash action.incidentKey ≠ [pdIncidentKeyPref, rid]) →
      App.onPagerdutyAction b env action = (.ok (), [])) := by
  constructor
  · intro h
    simp [App.onPagerdutyAction, h]
  · intro h
    by_cases hevent : action.event = "incident.custom"
    · rcases hsp : splitSlash action.incidentKey with _ | ⟨a, _ | ⟨c, _ | ⟨d, rest⟩⟩⟩
      · simp [App.onPagerdutyAction, hevent, hsp]
      · simp [App.onPagerdutyAction, hevent, hsp]
      · have ha : a ≠ pdIncidentKeyPref := by
          intro hcontr
          exact h c (by rw [hsp, hcontr])
        simp [App.onPagerdutyAction, hevent, hsp, ha]
      · simp [App.onPagerdutyAction, hevent, hsp]
    · simp [App.onPagerdutyAction, hevent]

/-- C5 witness: an `incident.trigger` event and a prefix-less incident key are
both no-ops. -/
theorem onPagerdutyAction_noise_noop_witness :
    App.onPagerdutyAction botT envBase wrongEventActionT = (.ok (), []) ∧
    App.onPagerdutyAction botT envBase badKeyActionT = (.ok (), []) :=
  ⟨(onPagerdutyAction_noise_noop botT envBase wrongEventActionT).1 (by decide),
   (onPagerdutyAction_noise_noop botT envBase badKeyActionT).2 (by
      intro rid h
      rw [show splitSlash badKeyActionT.incidentKey = ["some-other-key"] from rfl] at h
      injection h with h1 h2
      exact List.noConfusion h2)⟩

/-- C6: a watcher `put` event for a non-pending request is ignored: the
handler returns success with no calls (no incident creation). -/
theorem onWatcherEvent_nonPendingPut_noop (b : BotConfig) (env : Env) (event : Event)
    (hop : event.op = EventOp.put) (hstate : event.request.state ≠ ReqState.pending) :
    App.onWatcherEvent b env event = (.ok (), []) := by
  have hp : event.request.state.IsPending = false := by
    cases h : event.request.state <;> simp_all [ReqState.IsPending]
  simp [App.onWatcherEvent, hop, hp]

/-- C6 witness: a put event for an already-approved request is a no-op. -/
theorem onWatcherEvent_nonPendingPut_noop_witness :
    App.onWatcherEvent botT envBase
      { op := EventOp.put, request := { reqT with state := .approved } } = (.ok (), []) :=
  onWatcherEvent_nonPendingPut_noop botT envBase
    { op := EventOp.put, request := { reqT with state := .approved } } rfl (by decide)

/-- C7: when the incident ID stored in plugin data differs from the one the
callback carries, the handler fails hard; the trace holds only the request
and plugin-data lookups — no state transition and no incident call. -/
theorem onPagerdutyAction_incidentMismatch (b : BotConfig) (env : Env) (action : WebhookAction)
    (reqID : String) (req : Request) (m : List (String × String))
    (hevent : action.event = "incident.custom")
    (hkey : splitSlash action.incidentKey = [pdIncidentKeyPref, reqID])
    (hreq : env.getRequest reqID = .ok req)
    (hpending : req.state = ReqState.pending)
    (hpd : env.getPluginData reqID = .ok m)
    (hmm : (DecodePluginData m).pagerdutyData.id ≠ action.incidentID) :
    App.onPagerdutyAction b env action =
      (.error (Err.internal "incident_id from request's plugin_data does not match"),
       [Call.getRequest reqID, Call.getPluginData reqID]) := by
  simp [App.onPagerdutyAction, App.getPluginData, hevent, hkey, hreq, hpending, hpd, hmm]

/-- C7 witness: the action carrying incident ID INC2 against stored INC1
fails with only the two lookups issued. -/
theorem onPagerdutyAction_incidentMismatch_witness :
    App.onPagerdutyAction botT envBase mismatchActionT =
      (.error (Err.internal "incident_id from request's plugin_data does not match"),
       [Call.getRequest "R1", Call.getPluginData "R1"]) :=
  onPagerdutyAction_incidentMismatch botT envBase mismatchActionT "R1" reqT pluginMapT
    rfl (by decide) rfl rfl rfl (by decide)

/-- C8: on a deletion event, absent plugin data (not-found) yields success
with no incident call; present plugin data leads to resolving the referenced
incident with the reason "expired" (note, then manage). -/
theorem onDeletedRequest_behavior (b : BotConfig) (env : Env) (req : Request) :
    (∀ msg : String, env.getPluginData req.id = .error (Err.notFound msg) →
      App.onDeletedRequest b env req = (.ok (), [Call.getPluginData req.id])) ∧
    (∀ m : List (String × String), env.getPluginData req.id = .ok m →
      env.createIncidentNote (DecodePluginData m).pagerdutyData.id b.fromEmail
          "Access request has been expired" = .ok () →
      env.manageIncidents b.fromEmail (DecodePluginData m).pagerdutyData.id "resolved" = .ok () →
      App.onDeletedRequest b env req =
        (.ok (),
         [Call.getPluginData req.id,
          Call.createIncidentNote (DecodePluginData m).pagerdutyData.id b.fromEmail
            "Access request has been expired",
          Call.manageIncidents b.fromEmail (DecodePluginData m).pagerdutyData.id "resolved"])) := by
  constructor
  · intro msg h
    simp [App.onDeletedRequest, App.getPluginData, h, Err.IsNotFound]
  · intro m hm hnote hres
    simp [App.onDeletedRequest, App.getPluginData, Bot.ResolveIncident, hm, hnote, hres]

/-- C8 witness: a deletion with missing plugin data is a warn-and-succeed
no-op; one with stored plugin data resolves incident INC1 as expired. -/
theorem onDeletedRequest_behavior_witness :
    App.onDeletedRequest botT envPdataMissing reqT = (.ok (), [Call.getPluginData "R1"]) ∧
    App.onDeletedRequest botT envBase reqT =
      (.ok (),
       [Call.getPluginData "R1",
        Call.createIncidentNote "INC1" "bot@example.com" "Access request has been expired",
        Call.manageIncidents "bot@example.com" "INC1" "resolved"]) :=
  ⟨(onDeletedRequest_behavior botT envPdataMissing reqT).1 "plugin data not found" rfl,
   (onDeletedRequest_behavior botT envBase reqT).2 pluginMapT rfl rfl rfl⟩

/-- C10: in the webhook action path every plugin-data fetch failure, the
not-found case included, is propagated as a hard error (trace: the two
lookups only); the benign warn-and-succeed treatment applies to the request
lookup, whose not-found case returns success after the single lookup. -/
theorem onPagerdutyAction_pluginDataErrors (b : BotConfig) (env : Env) (action : WebhookAction)
    (reqID : String)
    (hevent : action.event = "incident.custom")
    (hkey : splitSlash action.incidentKey = [pdIncidentKeyPref, reqID]) :
    (∀ (req : Request) (e : Err), env.getRequest reqID = .ok req →
      req.state = ReqState.pending → env.getPluginData reqID = .error e →
      App.onPagerdutyAction b env action =
        (.error e, [Call.getRequest reqID, Call.getPluginData reqID])) ∧
    (∀ msg : String, env.getRequest reqID = .error (Err.notFound msg) →
      App.onPagerdutyAction b env action = (.ok (), [Call.getRequest reqID])) := by
  constructor
  · intro req e hreq hpending hpd
    simp [App.onPagerdutyAction, App.getPluginData, hevent, hkey, hreq, hpending, hpd]
  · intro msg hreq
    simp [App.onPagerdutyAction, hevent, hkey, hreq, Err.IsNotFound]

/-- C10 witness: a not-found plugin-data fetch makes the approve action fail
hard, while a not-found request lookup is a benign no-op. -/
theorem onPagerdutyAction_pluginDataErrors_witness :
    App.onPagerdutyAction botT envPdataMissing approveActionT =
      (.error (Err.notFound "plugin data not found"),
       [Call.getRequest "R1", Call.getPluginData "R1"]) ∧
    App.onPagerdutyAction botT envReqMissing approveActionT = (.ok (), [Call.getRequest "R1"]) :=
  ⟨(onPagerdutyAction_pluginDataErrors botT envPdataMissing approveActionT "R1"
      rfl (by decide)).1 reqT (Err.notFound "plugin data not found") rfl rfl rfl,
   (onPagerdutyAction_pluginDataErrors botT envReqMissing approveActionT "R1"
      rfl (by decide)).2 "request not found" rfl⟩

/-- C3: a pending request leads to exactly one incident-creation call, whose
incident key is `"teleport-access-request/<request-id>"`, followed by one
plugin-data write whose record decodes back to the created incident's ID. -/
theorem onPendingRequest_roundTrip (b : BotConfig) (env : Env) (req : Request) (incID : String)
    (hcreate : env.createIncident b.fromEmail b.serviceID ("Access request from " ++ req.user)
        (pdIncidentKeyPref ++ "/" ++ req.id)
        (Bot.buildIncidentBody req.id
          { user := req.user, roles := req.roles, created := req.created }) = .ok incID)
    (hupd : env.updatePluginData req.id
        (EncodePluginData
          { requestData := { user := req.user, roles := req.roles, created := req.created }
            pagerdutyData := { id := incID } }) = .ok ()) :
    App.onPendingRequest b env req =
      (.ok (),
       [Call.createIncident b.fromEmail b.serviceID ("Access request from " ++ req.user)
          (pdIncidentKeyPref ++ "/" ++ req.id)
          (Bot.buildIncidentBody req.id
            { user := req.user, roles := req.roles, created := req.created }),
        Call.updatePluginData req.id
          (EncodePluginData
            { requestData := { user := req.user, roles := req.roles, created := req.created }
              pagerdutyData := { id := incID } })]) ∧
    (App.onPendingRequest b env req).2.countP Call.isCreateIncident = 1 ∧
    pdIncidentKeyPref ++ "/" ++ req.id = "teleport-access-request/" ++ req.id ∧
    (DecodePluginData (EncodePluginData
        { requestData := { user := req.user, roles := req.roles, created := req.created }
          pagerdutyData := { id := incID } })).pagerdutyData.id = incID := by
  have hmain : App.onPendingRequest b env req =
      (.ok (),
       [Call.createIncident b.fromEmail b.serviceID ("Access request from " ++ req.user)
          (pdIncidentKeyPref ++ "/" ++ req.id)
          (Bot.buildIncidentBody req.id
            { user := req.user, roles := req.roles, created := req.created }),
        Call.updatePluginData req.id
          (EncodePluginData
            { requestData := { user := req.user, roles := req.roles, created := req.created }
              pagerdutyData := { id := incID } })]) := by
    simp [App.onPendingRequest, Bot.CreateIncident, App.setPluginData, hcreate, hupd]
  refine ⟨hmain, ?_, rfl, rfl⟩
  rw [hmain]
  simp [List.countP, List.countP.go, Call.isCreateIncident]

/-- C3 witness: in the all-success oracle, the pending R1 round-trips via one
incident INC1 and one plugin-data write that decodes back to INC1. -/
theorem onPendingRequest_roundTrip_witness :
    App.onPendingRequest botT envBase reqT =
      (.ok (),
       [Call.createIncident "bot@example.com" "SVC1" "Access request from alice"
          "teleport-access-request/R1"
          (Bot.buildIncidentBody "R1" reqDataT),
        Call.updatePluginData "R1" pluginMapT]) ∧
    (DecodePluginData pluginMapT).pagerdutyData.id = "INC1" :=
  ⟨((onPendingRequest_roundTrip botT envBase reqT "INC1" rfl rfl).1 : _),
   (onPendingRequest_roundTrip botT envBase reqT "INC1" rfl rfl).2.2.2⟩

/-- C4: on a valid webhook action, "approve" triggers the backend transition
to Approved first and only then the note ("approved") and resolve calls;
"deny" symmetrically maps to Denied / "denied"; an unknown action name fails
with a bad-parameter error before any backend mutation. -/
theorem onPagerdutyAction_actionDispatch (b : BotConfig) (env : Env) (action : WebhookAction)
    (reqID : String) (req : Request) (m : List (String × String))
    (hevent : action.event = "incident.custom")
    (hkey : splitSlash action.incidentKey = [pdIncidentKeyPref, reqID])
    (hreq : env.getRequest reqID = .ok req)
    (hpending : req.state = ReqState.pending)
    (hpd : env.getPluginData reqID = .ok m)
    (hmatch : (DecodePluginData m).pagerdutyData.id = action.incidentID) :
    (action.name = pdApproveAction →
      env.setRequestState req.id ReqState.approved = .ok () →
      env.createIncidentNote (DecodePluginData m).pagerdutyData.id b.fromEmail
          "Access request has been approved" = .ok () →
      env.manageIncidents b.fromEmail (DecodePluginData m).pagerdutyData.id "resolved" = .ok () →
      App.onPagerdutyAction b env action =
        (.ok (),
         [Call.getRequest reqID, Call.getPluginData reqID,
          Call.setRequestState req.id ReqState.approved,
          Call.createIncidentNote (DecodePluginData m).pagerdutyData.id b.fromEmail
            "Access request has been approved",
          Call.manageIncidents b.fromEmail (DecodePluginData m).pagerdutyData.id "resolved"])) ∧
    (action.name = pdDenyAction →
      env.setRequestState req.id ReqState.denied = .ok () →
      env.createIncidentNote (DecodePluginData m).pagerdutyData.id b.fromEmail
          "Access request has been denied" = .ok () →
      env.manageIncidents b.fromEmail (DecodePluginData m).pagerdutyData.id "resolved" = .ok () →
      App.onPagerdutyAction b env action =
        (.ok (),
         [Call.getRequest reqID, Call.getPluginData reqID,
          Call.setRequestState req.id ReqState.denied,
          Call.createIncidentNote (DecodePluginData m).pagerdutyData.id b.fromEmail
            "Access request has been denied",
          Call.manageIncidents b.fromEmail (DecodePluginData m).pagerdutyData.id "resolved"])) ∧
    (action.name ≠ pdApproveAction → action.name ≠ pdDenyAction →
      App.onPagerdutyAction b env action =
        (.error (Err.badParameter ("unknown action: " ++ action.name)),
         [Call.getRequest reqID, Call.getPluginData reqID])) := by
  refine ⟨?_, ?_, ?_⟩
  · intro hname hset hnote hres
    rw [hmatch] at hnote hres
    simp [App.onPagerdutyAction, App.getPluginData, Bot.ResolveIncident,
      hevent, hkey, hreq, hpending, hpd, hmatch, hname, hset, hnote, hres]
  · intro hname hset hnote hres
    rw [hmatch] at hnote hres
    have hnotApprove : action.name ≠ pdApproveAction := by
      rw [hname]; decide
    simp [App.onPagerdutyAction, App.getPluginData, Bot.ResolveIncident, pdApproveAction,
      pdDenyAction, hevent, hkey, hreq, hpending, hpd, hmatch, hname, hnotApprove, hset,
      hnote, hres]
  · intro hname1 hname2
    simp [App.onPagerdutyAction, App.getPluginData,
      hevent, hkey, hreq, hpending, hpd, hmatch, hname1, hname2]

/-- C4 witness: approve and deny actions on pending R1 / incident INC1 issue
the backend transition then the note and resolve calls; the unknown action
"snooze" fails as a bad parameter with only the two lookups issued. -/
theorem onPagerdutyAction_actionDispatch_witness :
    App.onPagerdutyAction botT envBase approveActionT =
      (.ok (),
       [Call.getRequest "R1", Call.getPluginData "R1",
        Call.setRequestState "R1" ReqState.approved,
        Call.createIncidentNote "INC1" "bot@example.com" "Access request has been approved",
        Call.manageIncidents "bot@example.com" "INC1" "resolved"]) ∧
    App.onPagerdutyAction botT envBase denyActionT =
      (.ok (),
       [Call.getRequest "R1", Call.getPluginData "R1",
        Call.setRequestState "R1" ReqState.denied,
        Call.createIncidentNote "INC1" "bot@example.com" "Access request has been denied",
        Call.manageIncidents "bot@example.com" "INC1" "resolved"]) ∧
    App.onPagerdutyAction botT envBase unknownActionT =
      (.error (Err.badParameter "unknown action: snooze"),
       [Call.getRequest "R1", Call.getPluginData "R1"]) :=
  ⟨(onPagerdutyAction_actionDispatch botT envBase approveActionT "R1" reqT pluginMapT
      rfl (by decide) rfl rfl rfl (by decide)).1 rfl rfl rfl rfl,
   (onPagerdutyAction_actionDispatch botT envBase denyActionT "R1" reqT pluginMapT
      rfl (by decide) rfl rfl rfl (by decide)).2.1 rfl rfl rfl rfl,
   (onPagerdutyAction_actionDispatch botT envBase unknownActionT "R1" reqT pluginMapT
      rfl (by decide) rfl rfl rfl (by decide)).2.2 (by decide) (by decide)⟩

/-- Unpacking `extPagesOk`: every page is a successful response. -/
theorem extPagesOk_allOk (pages : List (Except Err ExtPage))
    (h : extPagesOk pages = true) :
    ∀ p ∈ pages, ∃ pg, p = .ok pg := by
  intro p hp
  have hx := (List.all_eq_true.mp h) p hp
  cases p with
  | error e => simp at hx
  | ok pg => exact ⟨pg, rfl⟩

/-- Unpacking `extPagesOk`: approve-labelled entries carry nonempty IDs. -/
theorem extPagesOk_approveIDs (pages : List (Except Err ExtPage))
    (h : extPagesOk pages = true) :
    ∀ p ∈ pages, ∃ pg, p = .ok pg ∧
      ∀ e ∈ pg.extensions, e.name = pdApproveActionLabel → e.id ≠ "" := by
  intro p hp
  have hx := (List.all_eq_true.mp h) p hp
  cases p with
  | error e => simp at hx
  | ok pg =>
    refine ⟨pg, rfl, ?_⟩
    intro e he hen
    have h2 := (List.all_eq_true.mp hx) e he
    rw [hen] at h2
    simpa [Bool.and_eq_true, Bool.or_eq_true, pdApproveActionLabel, pdDenyActionLabel] using h2

/-- Unpacking `extPagesOk`: deny-labelled entries carry nonempty IDs. -/
theorem extPagesOk_denyIDs (pages : List (Except Err ExtPage))
    (h : extPagesOk pages = true) :
    ∀ p ∈ pages, ∃ pg, p = .ok pg ∧
      ∀ e ∈ pg.extensions, e.name = pdDenyActionLabel → e.id ≠ "" := by
  intro p hp
  have hx := (List.all_eq_true.mp h) p hp
  cases p with
  | error e => simp at hx
  | ok pg =>
    refine ⟨pg, rfl, ?_⟩
    intro e he hen
    have h2 := (List.all_eq_true.mp hx) e he
    rw [hen] at h2
    simpa [Bool.and_eq_true, Bool.or_eq_true, pdApproveActionLabel, pdDenyActionLabel] using h2

/-- Unpacking `extAppears`: a page holds an entry with the label. -/
theorem extAppears_spec (label : String) (pages : List (Except Err ExtPage))
    (h : extAppears label pages = true) :
    ∃ p ∈ pages, ∃ pg, p = .ok pg ∧ ∃ e ∈ pg.extensions, e.name = label := by
  rcases List.any_eq_true.mp h with ⟨p, hp, hx⟩
  cases p with
  | error e => simp at hx
  | ok pg =>
    rcases List.any_eq_true.mp hx with ⟨e, he, hen⟩
    exact ⟨.ok pg, hp, pg, rfl, e, he, by simpa using hen⟩

/-- Predicate `moreLinked` on a list of length at least two forces `More` on the head. -/
theorem moreLinked_cons (pg : ExtPage) (q : Except Err ExtPage)
    (rest : List (Except Err ExtPage))
    (h : moreLinked (.ok pg :: q :: rest) = true) :
    pg.more = true ∧ moreLinked (q :: rest) = true := by
  simpa [moreLinked, Bool.and_eq_true] using h

/-- The search loop on no pages returns the accumulator. -/
theorem findExtIDs_nil (acc : String × String) : findExtIDs [] acc = .ok acc := by
  simp [findExtIDs]

/-- The search loop stops as soon as both IDs are nonempty. -/
theorem findExtIDs_found (pages : List (Except Err ExtPage)) (acc : String × String)
    (hc : acc.1 ≠ "" ∧ acc.2 ≠ "") : findExtIDs pages acc = .ok acc := by
  match pages with
  | [] => simp [findExtIDs, hc]
  | .error e :: rest => simp [findExtIDs, hc]
  | .ok pg :: rest => simp [findExtIDs, hc]

/-- One step of the search loop over a successful page. -/
theorem findExtIDs_cons (pg : ExtPage) (rest : List (Except Err ExtPage))
    (acc : String × String) (hc : ¬(acc.1 ≠ "" ∧ acc.2 ≠ "")) :
    findExtIDs (.ok pg :: rest) acc =
      if pg.more then findExtIDs rest (scanExtPage pg.extensions acc)
      else .ok (scanExtPage pg.extensions acc) := by
  simp [findExtIDs, hc]

/-- The page scan leaves the approve component nonempty when it starts
nonempty or some entry carries the approve label (given nonempty IDs on all
approve-labelled entries). -/
theorem scanExtPage_fst_ne (exts : List ExtEntry) (acc : String × String)
    (hids : ∀ e ∈ exts, e.name = pdApproveActionLabel → e.id ≠ "")
    (h : acc.1 ≠ "" ∨ ∃ e ∈ exts, e.name = pdApproveActionLabel) :
    (scanExtPage exts acc).1 ≠ "" := by
  induction exts generalizing acc with
  | nil =>
    rcases h with h | ⟨e, he, _⟩
    · simpa [scanExtPage] using h
    · cases he
  | cons e rest ih =>
    simp only [scanExtPage]
    apply ih _ (fun z hz hn => hids z (List.mem_cons_of_mem _ hz) hn)
    by_cases hn : e.name = pdApproveActionLabel
    · left
      simpa [hn] using hids e (List.mem_cons_self _ _) hn
    · rcases h with h | ⟨x, hx, hxn⟩
      · left
        simpa [hn] using h
      · rcases List.mem_cons.mp hx with hx1 | hx2
        · exact absurd (hx1 ▸ hxn) hn
        · right
          exact ⟨x, hx2, hxn⟩

/-- The page scan leaves the deny component nonempty when it starts nonempty
or some entry carries the deny label (given nonempty IDs on all
deny-labelled entries). -/
theorem scanExtPage_snd_ne (exts : List ExtEntry) (acc : String × String)
    (hids : ∀ e ∈ exts, e.name = pdDenyActionLabel → e.id ≠ "")
    (h : acc.2 ≠ "" ∨ ∃ e ∈ exts, e.name = pdDenyActionLabel) :
    (scanExtPage exts acc).2 ≠ "" := by
  induction exts generalizing acc with
  | nil =>
    rcases h with h | ⟨e, he, _⟩
    · simpa [scanExtPage] using h
    · cases he
  | cons e rest ih =>
    simp only [scanExtPage]
    apply ih _ (fun z hz hn => hids z (List.mem_cons_of_mem _ hz) hn)
    by_cases hn : e.name = pdDenyActionLabel
    · left
      simpa [hn] using hids e (List.mem_cons_self _ _) hn
    · rcases h with h | ⟨x, hx, hxn⟩
      · left
        simpa [hn] using h
      · rcases List.mem_cons.mp hx with hx1 | hx2
        · exact absurd (hx1 ▸ hxn) hn
        · right
          exact ⟨x, hx2, hxn⟩

/-- The search loop preserves a nonempty approve component. -/
theorem findExtIDs_fst_preserved (pages : List (Except Err ExtPage)) (acc r : String × String)
    (hok : ∀ p ∈ pages, ∃ pg, p = .ok pg ∧
      ∀ e ∈ pg.extensions, e.name = pdApproveActionLabel → e.id ≠ "")
    (hacc : acc.1 ≠ "") (hfind : findExtIDs pages acc = .ok r) : r.1 ≠ "" := by
  induction pages generalizing acc with
  | nil =>
    rw [findExtIDs_nil] at hfind
    cases hfind
    exact hacc
  | cons p rest ih =>
    rcases hok p (List.mem_cons_self _ _) with ⟨pg, rfl, hids⟩
    by_cases hc : acc.1 ≠ "" ∧ acc.2 ≠ ""
    · rw [findExtIDs_found _ _ hc] at hfind
      cases hfind
      exact hacc
    · rw [findExtIDs_cons _ _ _ hc] at hfind
      have hacc2 : (scanExtPage pg.extensions acc).1 ≠ "" :=
        scanExtPage_fst_ne _ _ hids (Or.inl hacc)
      cases hm : pg.more with
      | false =>
        rw [hm, if_neg (by simp)] at hfind
        cases hfind
        exact hacc2
      | true =>
        rw [hm, if_pos rfl] at hfind
        exact ih _ (fun q hq => hok q (List.mem_cons_of_mem _ hq)) hacc2 hfind

/-- The search loop preserves a nonempty deny component. -/
theorem findExtIDs_snd_preserved (pages : List (Except Err ExtPage)) (acc r : String × String)
    (hok : ∀ p ∈ pages, ∃ pg, p = .ok pg ∧
      ∀ e ∈ pg.extensions, e.name = pdDenyActionLabel → e.id ≠ "")
    (hacc : acc.2 ≠ "") (hfind : findExtIDs pages acc = .ok r) : r.2 ≠ "" := by
  induction pages generalizing acc with
  | nil =>
    rw [findExtIDs_nil] at hfind
    cases hfind
    exact hacc
  | cons p rest ih =>
    rcases hok p (List.mem_cons_self _ _) with ⟨pg, rfl, hids⟩
    by_cases hc : acc.1 ≠ "" ∧ acc.2 ≠ ""
    · rw [findExtIDs_found _ _ hc] at hfind
      cases hfind
      exact hacc
    · rw [findExtIDs_cons _ _ _ hc] at hfind
      have hacc2 : (scanExtPage pg.extensions acc).2 ≠ "" :=
        scanExtPage_snd_ne _ _ hids (Or.inl hacc)
      cases hm : pg.more with
      | false =>
        rw [hm, if_neg (by simp)] at hfind
        cases hfind
        exact hacc2
      | true =>
        rw [hm, if_pos rfl] at hfind
        exact ih _ (fun q hq => hok q (List.mem_cons_of_mem _ hq)) hacc2 hfind

/-- If the approve label appears somewhere in a well-formed listing, the
search loop ends with a nonempty approve component. -/
theorem findExtIDs_fst_ne (pages : List (Except Err ExtPage)) (acc r : String × String)
    (hok : ∀ p ∈ pages, ∃ pg, p = .ok pg ∧
      ∀ e ∈ pg.extensions, e.name = pdApproveActionLabel → e.id ≠ "")
    (hlink : moreLinked pages = true)
    (h : acc.1 ≠ "" ∨ ∃ p ∈ pages, ∃ pg, p = .ok pg ∧
      ∃ e ∈ pg.extensions, e.name = pdApproveActionLabel)
    (hfind : findExtIDs pages acc = .ok r) : r.1 ≠ "" := by
  induction pages generalizing acc with
  | nil =>
    rw [findExtIDs_nil] at hfind
    cases hfind
    rcases h with h | ⟨p, hp, _⟩
    · exact h
    · cases hp
  | cons p rest ih =>
    rcases hok p (List.mem_cons_self _ _) with ⟨pg, rfl, hids⟩
    by_cases hc : acc.1 ≠ "" ∧ acc.2 ≠ ""
    · rw [findExtIDs_found _ _ hc] at hfind
      cases hfind
      exact hc.1
    · rw [findExtIDs_cons _ _ _ hc] at hfind
      rcases h with hA | ⟨q, hq, qpg, hqeq, hqw⟩
      · have hacc2 : (scanExtPage pg.extensions acc).1 ≠ "" :=
          scanExtPage_fst_ne _ _ hids (Or.inl hA)
        cases hm : pg.more with
        | false =>
          rw [hm, if_neg (by simp)] at hfind
          cases hfind
          exact hacc2
        | true =>
          rw [hm, if_pos rfl] at hfind
          exact findExtIDs_fst_preserved rest _ r
            (fun z hz => hok z (List.mem_cons_of_mem _ hz)) hacc2 hfind
      · rcases List.mem_cons.mp hq with hq1 | hq2
        · have hw : ∃ e ∈ pg.extensions, e.name = pdApproveActionLabel := by
            rw [hq1] at hqeq
            cases hqeq
            exact hqw
          have hacc2 : (scanExtPage pg.extensions acc).1 ≠ "" :=
            scanExtPage_fst_ne _ _ hids (Or.inr hw)
          cases hm : pg.more with
          | false =>
            rw [hm, if_neg (by simp)] at hfind
            cases hfind
            exact hacc2
          | true =>
            rw [hm, if_pos rfl] at hfind
            exact findExtIDs_fst_preserved rest _ r
              (fun z hz => hok z (List.mem_cons_of_mem _ hz)) hacc2 hfind
        · cases rest with
          | nil => exact absurd hq2 (List.not_mem_nil _)
          | cons q2 rest2 =>
            rcases moreLinked_cons pg q2 rest2 hlink with ⟨hm, hlink2⟩
            rw [hm, if_pos rfl] at hfind
            exact ih _ (fun z hz => hok z (List.mem_cons_of_mem _ hz)) hlink2
              (Or.inr ⟨q, hq2, qpg, hqeq, hqw⟩) hfind

/-- If the deny label appears somewhere in a well-formed listing, the search
loop ends with a nonempty deny component. -/
theorem findExtIDs_snd_ne (pages : List (Except Err ExtPage)) (acc r : String × String)
    (hok : ∀ p ∈ pages, ∃ pg, p = .ok pg ∧
      ∀ e ∈ pg.extensions, e.name = pdDenyActionLabel → e.id ≠ "")
    (hlink : moreLinked pages = true)
    (h : acc.2 ≠ "" ∨ ∃ p ∈ pages, ∃ pg, p = .ok pg ∧
      ∃ e ∈ pg.extensions, e.name = pdDenyActionLabel)
    (hfind : findExtIDs pages acc = .ok r) : r.2 ≠ "" := by
  induction pages generalizing acc with
  | nil =>
    rw [findExtIDs_nil] at hfind
    cases hfind
    rcases h with h | ⟨p, hp, _⟩
    · exact h
    · cases hp
  | cons p rest ih =>
    rcases hok p (List.mem_cons_self _ _) with ⟨pg, rfl, hids⟩
    by_cases hc : acc.1 ≠ "" ∧ acc.2 ≠ ""
    · rw [findExtIDs_found _ _ hc] at hfind
      cases hfind
      exact hc.2
    · rw [findExtIDs_cons _ _ _ hc] at hfind
      rcases h with hA | ⟨q, hq, qpg, hqeq, hqw⟩
      · have hacc2 : (scanExtPage pg.extensions acc).2 ≠ "" :=
          scanExtPage_snd_ne _ _ hids (Or.inl hA)
        cases hm : pg.more with
        | false =>
          rw [hm, if_neg (by simp)] at hfind
          cases hfind
          exact hacc2
        | true =>
          rw [hm, if_pos rfl] at hfind
          exact findExtIDs_snd_preserved rest _ r
            (fun z hz => hok z (List.mem_cons_of_mem _ hz)) hacc2 hfind
      · rcases List.mem_cons.mp hq with hq1 | hq2
        · have hw : ∃ e ∈ pg.extensions, e.name = pdDenyActionLabel := by
            rw [hq1] at hqeq
            cases hqeq
            exact hqw
          have hacc2 : (scanExtPage pg.extensions acc).2 ≠ "" :=
            scanExtPage_snd_ne _ _ hids (Or.inr hw)
          cases hm : pg.more with
          | false =>
            rw [hm, if_neg (by simp)] at hfind
            cases hfind
            exact hacc2
          | true =>
            rw [hm, if_pos rfl] at hfind
            exact findExtIDs_snd_preserved rest _ r
              (fun z hz => hok z (List.mem_cons_of_mem _ hz)) hacc2 hfind
        · cases rest with
          | nil => exact absurd hq2 (List.not_mem_nil _)
          | cons q2 rest2 =>
            rcases moreLinked_cons pg q2 rest2 hlink with ⟨hm, hlink2⟩
            rw [hm, if_pos rfl] at hfind
            exact ih _ (fun z hz => hok z (List.mem_cons_of_mem _ hz)) hlink2
              (Or.inr ⟨q, hq2, qpg, hqeq, hqw⟩) hfind

/-- C9: extension provisioning is an idempotent upsert.  With the extension
IDs the paginated label search returns: (i)/(ii) whenever the listing is
well-formed and an approve- (resp. deny-) labelled extension exists on some
page, the search returns its nonempty ID; (iii) when both IDs were found,
`Setup` issues exactly the two update-by-ID calls and no create call;
(iv) when neither was found, it issues exactly the two create calls and no
update call. -/
theorem Setup_idempotent_upsert (b : BotConfig) (env : Env) (sid aID dID : String)
    (hschema : findSchemaID env.listSchemaPages "" = .ok sid)
    (hsid : sid ≠ "")
    (hfind : findExtIDs env.listExtPages ("", "") = .ok (aID, dID)) :
    (extPagesOk env.listExtPages = true → moreLinked env.listExtPages = true →
      extAppears pdApproveActionLabel env.listExtPages = true → aID ≠ "") ∧
    (extPagesOk env.listExtPages = true → moreLinked env.listExtPages = true →
      extAppears pdDenyActionLabel env.listExtPages = true → dID ≠ "") ∧
    (aID ≠ "" → dID ≠ "" → (∀ i e, env.updateExtension i e = .ok ()) →
      Bot.Setup b env =
        (.ok (), [Call.updateExtension aID (extApprove b sid),
                  Call.updateExtension dID (extDeny b sid)]) ∧
      (Bot.Setup b env).2.countP Call.isCreateExtension = 0) ∧
    (aID = "" → dID = "" → (∀ e, env.createExtension e = .ok ()) →
      Bot.Setup b env =
        (.ok (), [Call.createExtension (extApprove b sid),
                  Call.createExtension (extDeny b sid)]) ∧
      (Bot.Setup b env).2.countP Call.isUpdateExtension = 0) := by
  refine ⟨?_, ?_, ?_, ?_⟩
  · intro hok hlink happ
    rcases extAppears_spec _ _ happ with ⟨p, hp, pg, hpeq, e, he, hen⟩
    exact findExtIDs_fst_ne env.listExtPages ("", "") (aID, dID)
      (extPagesOk_approveIDs _ hok) hlink
      (Or.inr ⟨p, hp, pg, hpeq, e, he, hen⟩) hfind
  · intro hok hlink happ
    rcases extAppears_spec _ _ happ with ⟨p, hp, pg, hpeq, e, he, hen⟩
    exact findExtIDs_snd_ne env.listExtPages ("", "") (aID, dID)
      (extPagesOk_denyIDs _ hok) hlink
      (Or.inr ⟨p, hp, pg, hpeq, e, he, hen⟩) hfind
  · intro haID hdID hupd
    have hmain : Bot.Setup b env =
        (.ok (), [Call.updateExtension aID (extApprove b sid),
                  Call.updateExtension dID (extDeny b sid)]) := by
      simp [Bot.Setup, Bot.setupCustomAction, extApprove, extDeny,
        hschema, hsid, hfind, haID, hdID, hupd]
    refine ⟨hmain, ?_⟩
    rw [hmain]
    simp [List.countP, List.countP.go, Call.isCreateExtension]
  · intro haID hdID hcreate
    subst haID
    subst hdID
    have hmain : Bot.Setup b env =
        (.ok (), [Call.createExtension (extApprove b sid),
                  Call.createExtension (extDeny b sid)]) := by
      simp [Bot.Setup, Bot.setupCustomAction, extApprove, extDeny,
        hschema, hsid, hfind, hcreate]
    refine ⟨hmain, ?_⟩
    rw [hmain]
    simp [List.countP, List.countP.go, Call.isUpdateExtension]

/-- C9 witness: with both extensions present under their fixed labels the
run issues the two update-by-ID calls; with an empty listing it issues the
two create calls. -/
theorem Setup_idempotent_upsert_witness :
    Bot.Setup botT envBase =
      (.ok (), [Call.updateExtension "EXTA" (extApprove botT "SCHEMA1"),
                Call.updateExtension "EXTD" (extDeny botT "SCHEMA1")]) ∧
    Bot.Setup botT envExtAbsent =
      (.ok (), [Call.createExtension (extApprove botT "SCHEMA1"),
                Call.createExtension (extDeny botT "SCHEMA1")]) :=
  ⟨((Setup_idempotent_upsert botT envBase "SCHEMA1" "EXTA" "EXTD" rfl (by decide) rfl).2.2.1
      (by decide) (by decide) (fun i e => rfl)).1,
   ((Setup_idempotent_upsert botT envExtAbsent "SCHEMA1" "" "" rfl (by decide) rfl).2.2.2
      rfl rfl (fun e => rfl)).1⟩
